import Mathlib

/-
Verification of the download-orchestration core of a YouTube downloader
frontend (Tauri + React + zustand).  The model below is a shallow
embedding of the TypeScript store actions in `src/stores/app-store.ts`
and of `RecentDownloadsService` (the recent-downloads service module).

Conventions of the embedding:
- The zustand store state relevant to a claim is passed explicitly.
- A backend `invoke` call is modelled by an explicit argument carrying
  its result (`Except` for calls that can reject, `Bool` for calls
  where only success/failure matters), since the Rust backend is an
  external collaborator at this boundary.
- JavaScript string equality `===` becomes propositional equality on
  `String`; `Array.prototype.findIndex` becomes `findIndexOpt`;
  `Array.prototype.slice(0, n)` becomes `List.take n`;
  `arr[i] = x` on a copy becomes `List.set`.
- The JS `x || y` idiom on optional payload fields is modelled by
  `jsStrOr` / `jsNumOr` (empty string and 0 are falsy).
- Download progress percentages are modelled as natural numbers: the
  embedded code only stores and compares them, never computes with
  fractional parts, so the choice of number type does not affect any
  statement below.
-/

/-- Status values of a queue entry, as in the union type
`pending | downloading | completed | failed` used by `DownloadItem`. -/
inductive DownloadStatus where
  | pending
  | downloading
  | completed
  | failed
deriving DecidableEq

/-- A queue entry (`DownloadItem` in `src/types`): the fields touched by the
store actions.  Optional fields are absent (`undefined`) until assigned. -/
structure DownloadItem where
  id : String
  url : String
  title : String
  format : String
  quality : String
  outputPath : String
  status : DownloadStatus
  progress : Nat
  speed : String
  eta : String
  error : Option String := none
  downloadedAt : Option String := none
  size : Option Nat := none
  duration : Option Nat := none
deriving DecidableEq

/-- A recent-downloads record (`RecentDownload` in `src/types`). -/
structure RecentDownload where
  id : String
  title : String
  url : String
  filePath : String
  thumbnail : String
  size : Nat
  duration : Nat
  quality : String
  downloadedAt : String
  format : String
deriving DecidableEq

/-- The slice of the zustand store state used by the completion handler:
the download queue and the recent-downloads list. -/
structure AppState where
  downloadQueue : List DownloadItem
  recentDownloads : List RecentDownload
deriving DecidableEq

/-- JavaScript `x || y` for an optional string field of an event payload:
`undefined` and the empty string are falsy, so they select `y`. -/
def jsStrOr (x : Option String) (y : String) : String :=
  match x with
  | none => y
  | some s => if s = "" then y else s

/-- JavaScript `x || y` for an optional numeric field: `undefined` and `0`
are falsy, so they select `y`. -/
def jsNumOr (x : Option Nat) (y : Nat) : Nat :=
  match x with
  | none => y
  | some n => if n = 0 then y else n

/-- JavaScript `Array.prototype.findIndex`, with the not-found result `-1`
rendered as `none` (the embedded code only tests `existingIndex >= 0`). -/
def findIndexOpt (p : α → Bool) : List α → Option Nat
  | [] => none
  | a :: l => if p a then some 0 else (findIndexOpt p l).map (fun n => n + 1)

/-- Embedding of `addRecentDownload` (`app-store.ts` lines 268-292).
The action first awaits the backend persistence call
`invoke(save_recent_download)`; `persistOk` carries its outcome.  Only
after it succeeds does the action upsert into the in-memory list:
replace at the index of an existing record with the same id, else cons
to the front and truncate to 100 entries.  A rejected persistence call
jumps to the catch block, which only logs, leaving the list unchanged. -/
def addRecentDownload (current : List RecentDownload) (download : RecentDownload)
    (persistOk : Bool) : List RecentDownload :=
  if persistOk then
    match findIndexOpt (fun d => d.id == download.id) current with
    | some i => current.set i download
    | none => (download :: current).take 100
  else
    current

/-- Embedding of the body of the `download-progress` event listener
registered by `startDownload` (`app-store.ts` lines 164-179), in the case
where the payload session id matches the registered download id.  Every
queue entry whose id equals the listened entry id receives the payload
percent unconditionally; `speed`/`eta` follow the `payload.x || d.x`
idiom.  No status check and no monotonicity check appear in the source. -/
def applyProgressEvent (queue : List DownloadItem) (id : String) (percent : Nat)
    (speedPayload etaPayload : Option String) : List DownloadItem :=
  queue.map fun d =>
    if d.id = id then
      { d with
        progress := percent,
        speed := jsStrOr speedPayload d.speed,
        eta := jsStrOr etaPayload d.eta }
    else d

/-- Embedding of `cancelDownload` (`app-store.ts` lines 246-257).  The
action awaits `invoke(cancel_download)`; only when that call resolves does
it map the matching entry to status `pending`.  A rejection jumps to the
catch block, which only logs, leaving the queue unchanged. -/
def cancelDownload (queue : List DownloadItem) (id : String)
    (cancelResult : Except String Unit) : List DownloadItem :=
  match cancelResult with
  | Except.ok _ =>
      queue.map fun d =>
        if d.id = id then { d with status := DownloadStatus.pending } else d
  | Except.error _ => queue

/-- Name of the backend command invoked by `startDownload`. -/
def cmdStartDownload : String := "start_download"

/-- Name of the backend command that refreshes cookies
(`YtDlpService.refreshCookies`); recorded here so that theorems can state
how often the start path invokes it. -/
def cmdRefreshCookies : String := "refresh_cookies"

/-- Result of the synchronous part of `startDownload`: the guard
`if (!item) return;` yields `notInQueue` (a silent plain return, carrying
no error value); otherwise the awaited `invoke(start_download)` either
resolves with a backend session id or rejects with an error message. -/
inductive StartResult where
  | notInQueue
  | started (sessionId : String)
  | failedStart (err : String)
deriving DecidableEq

/-- Embedding of `startDownload` (`app-store.ts` lines 132-244) up to the
resolution of the `start_download` invocation.  Returns the new queue, the
result of the call, and the list of backend commands invoked on this path.
If the entry id is absent the action returns immediately: no status
change, no invocation, no error raised.  Otherwise the entry is set to
`downloading` and `start_download` is invoked (`invokeResult` carries the
outcome); on rejection the catch block sets the entry to `failed` and
records the stringified error.  No branch of the source inspects the
error for an auth signature, invokes `refresh_cookies`, or re-invokes
`start_download`. -/
def startDownload (queue : List DownloadItem) (id : String)
    (invokeResult : Except String String) :
    List DownloadItem × StartResult × List String :=
  match queue.find? (fun d => d.id == id) with
  | none => (queue, StartResult.notInQueue, [])
  | some _ =>
      let q1 := queue.map fun d =>
        if d.id = id then { d with status := DownloadStatus.downloading } else d
      match invokeResult with
      | Except.ok sid => (q1, StartResult.started sid, [cmdStartDownload])
      | Except.error e =>
          (q1.map fun d =>
            if d.id = id then
              { d with status := DownloadStatus.failed, error := some e }
            else d,
           StartResult.failedStart e, [cmdStartDownload])

/-- File size obtained by the `download-complete` listener: the result of
`invoke(get_file_size)`, with the try/catch fallback `fileSize = 0` when
that call rejects. -/
def resolvedSize (fileSizeResult : Except String Nat) : Nat :=
  match fileSizeResult with
  | Except.ok n => n
  | Except.error _ => 0

/-- Embedding of the queue update performed by the `download-complete`
event listener (`app-store.ts` lines 182-235) for the matching session:
the entry becomes `completed` with progress 100, records the completion
timestamp, the resolved file size (0 when `get_file_size` rejected), and
the duration via the `videoInfo?.duration || d.duration || 0` chain.  The
`speed` and `eta` fields are not mentioned in the update and keep their
last values. -/
def completeDownload (queue : List DownloadItem) (id : String)
    (fileSizeResult : Except String Nat) (completedAt : String)
    (videoDur : Option Nat) : List DownloadItem :=
  let fileSize := resolvedSize fileSizeResult
  queue.map fun d =>
    if d.id = id then
      { d with
        status := DownloadStatus.completed,
        progress := 100,
        downloadedAt := some completedAt,
        size := some fileSize,
        duration := some (jsNumOr videoDur (jsNumOr d.duration 0)) }
    else d

/-- Composition performed by the `download-complete` listener on the app
state: first the queue update above, then (inside its own try/catch, so a
failure is only logged) `addRecentDownload` with the record built from the
entry; `persistOk` is the outcome of that store write. -/
def completeAndRecord (st : AppState) (id : String)
    (fileSizeResult : Except String Nat) (completedAt : String)
    (videoDur : Option Nat) (rec : RecentDownload) (persistOk : Bool) : AppState :=
  { downloadQueue := completeDownload st.downloadQueue id fileSizeResult completedAt videoDur,
    recentDownloads := addRecentDownload st.recentDownloads rec persistOk }

/-- JavaScript `String.prototype.toLowerCase`, on the character-list view
of a string (the embedded code lowercases only to compare). -/
def lowerChars (s : String) : List Char := s.data.map Char.toLower

/-- JavaScript `String.prototype.includes`: scans every suffix of the
haystack for the needle as a prefix. -/
def charsIncludes : List Char → List Char → Bool
  | [], needle => needle.isPrefixOf []
  | c :: t, needle => needle.isPrefixOf (c :: t) || charsIncludes t needle

namespace RecentDownloadsService

/-- Embedding of `RecentDownloadsService.search` (recent-downloads service
module, lines 44-53): lowercase the query once, keep the records whose
lowercased title or lowercased source URL includes it. -/
def search (all : List RecentDownload) (query : String) : List RecentDownload :=
  let lowerQuery := lowerChars query
  all.filter fun d =>
    charsIncludes (lowerChars d.title) lowerQuery ||
    charsIncludes (lowerChars d.url) lowerQuery

end RecentDownloadsService

/-- Specification-side predicate, written from the words of the spec:
the query occurs in the string as a case-insensitive substring. -/
def ciSubstr (query s : String) : Prop :=
  lowerChars query <:+: lowerChars s

instance (query s : String) : Decidable (ciSubstr query s) :=
  inferInstanceAs (Decidable (lowerChars query <:+: lowerChars s))

/-
Concrete sample data, used to evaluate the model at explicit inputs.
-/

/-- Sample backend error message with the auth signature. -/
def authErrMsg : String := "AuthRequired: sign in required"

/-- Sample backend rejection message for an IPC failure. -/
def ipcErrMsg : String := "ipc failure"

/-- Sample backend session id. -/
def sessId : String := "sess-1"

/-- Sample timestamp string. -/
def tsC7 : String := "2026-10-12T00:00:00Z"

/-- Sample recent-download record with identifier `a`. -/
def wRecA : RecentDownload :=
  { id := "a", title := "Alpha", url := "https://x/a", filePath := "/dl/a.mp4",
    thumbnail := "", size := 1, duration := 10, quality := "1080p",
    downloadedAt := "2026-01-01", format := "mp4" }

/-- Sample recent-download record with identifier `b`. -/
def wRecB : RecentDownload :=
  { id := "b", title := "Beta", url := "https://x/b", filePath := "/dl/b.mp4",
    thumbnail := "", size := 2, duration := 20, quality := "720p",
    downloadedAt := "2026-01-02", format := "mp4" }

/-- Re-downloaded variant of `wRecB`: same identifier, fresher contents. -/
def wRecB2 : RecentDownload :=
  { wRecB with title := "Beta redux", size := 3, downloadedAt := "2026-01-03" }

/-- Sample record used to fill a store to capacity. -/
def wOldRec : RecentDownload := { wRecA with id := "old" }

/-- Sample record with an identifier fresh for a full store. -/
def wNewRec : RecentDownload := { wRecA with id := "new" }

/-- A store filled to the 100-record capacity. -/
def wRep : List RecentDownload := List.replicate 100 wOldRec

/-- Record for the search scenario: title matches the query `rick`. -/
def wRick : RecentDownload :=
  { id := "r1", title := "Rick Astley - Never Gonna Give You Up",
    url := "https://youtube.com/watch1", filePath := "/dl/r1.mp4",
    thumbnail := "", size := 4, duration := 212, quality := "1080p",
    downloadedAt := "2026-01-04", format := "mp4" }

/-- Record for the search scenario: neither title nor URL matches `rick`. -/
def wOtherVid : RecentDownload :=
  { wRick with
    id := "r2", title := "Other Video",
    url := "https://youtube.com/watch2" }

/-- Sample pending queue entry with identifier `d1`. -/
def wPend : DownloadItem :=
  { id := "d1", url := "https://x/v1", title := "Pending Vid", format := "mp4",
    quality := "1080p", outputPath := "/dl/v1.mp4",
    status := DownloadStatus.pending, progress := 0, speed := "0 B/s", eta := "--:--" }

/-- Sample downloading queue entry at 80 percent. -/
def wDl : DownloadItem :=
  { id := "d1", url := "https://x/v2", title := "Progress Vid", format := "mp4",
    quality := "1080p", outputPath := "/dl/v2.mp4",
    status := DownloadStatus.downloading, progress := 80, speed := "2 MB/s", eta := "00:30" }

/-- The entry `wDl` after an out-of-order progress event carrying 10. -/
def wDlUpd : DownloadItem := { wDl with progress := 10 }

/-- Sample queue entry already in the terminal `completed` state. -/
def wDone : DownloadItem :=
  { id := "dc", url := "https://x/done", title := "Done Vid", format := "mp4",
    quality := "720p", outputPath := "/dl/done.mp4",
    status := DownloadStatus.completed, progress := 100, speed := "0 B/s", eta := "--:--" }

/-- Sample downloading entry on which cancel is invoked. -/
def wCancel : DownloadItem :=
  { id := "d1", url := "https://x/v3", title := "Cancel Vid", format := "mp4",
    quality := "1080p", outputPath := "/dl/v3.mp4",
    status := DownloadStatus.downloading, progress := 50, speed := "3 MB/s", eta := "01:00" }

/-- The entry `wCancel` after a successful cancel. -/
def wCancelPend : DownloadItem := { wCancel with status := DownloadStatus.pending }

/-- Sample downloading entry with live speed/eta display strings. -/
def wRun : DownloadItem :=
  { id := "d1", url := "https://x/v4", title := "Running Vid", format := "mp4",
    quality := "2160p", outputPath := "/dl/v4.mp4",
    status := DownloadStatus.downloading, progress := 97, speed := "1.2 MB/s", eta := "00:42" }

/-- App state holding only `wRun` in the queue. -/
def stC7 : AppState := { downloadQueue := [wRun], recentDownloads := [] }

/-- Recent-download record written for `wRun` on completion. -/
def recC7 : RecentDownload :=
  { id := "d1", title := "Running Vid", url := "https://x/v4",
    filePath := "/dl/v4.mp4", thumbnail := "", size := 5, duration := 0,
    quality := "2160p", downloadedAt := "2026-10-12", format := "mp4" }

/-- Sample queue entry whose id differs from every id queried in scenarios. -/
def wAbsent : DownloadItem :=
  { id := "d9", url := "https://x/v9", title := "Other", format := "mp4",
    quality := "480p", outputPath := "/dl/v9.mp4",
    status := DownloadStatus.pending, progress := 0, speed := "0 B/s", eta := "--:--" }

/-
Helper lemmas.
-/

theorem addRecentDownload_found {s : List RecentDownload} {r : RecentDownload} {i : Nat}
    (h : findIndexOpt (fun d => d.id == r.id) s = some i) :
    addRecentDownload s r true = s.set i r := by
  unfold addRecentDownload
  rw [h]
  rfl

theorem addRecentDownload_fresh {s : List RecentDownload} {r : RecentDownload}
    (h : findIndexOpt (fun d => d.id == r.id) s = none) :
    addRecentDownload s r true = r :: s.take 99 := by
  unfold addRecentDownload
  rw [h]
  rfl

theorem findIndexOpt_set {α : Type} {p : α → Bool} {a : α} (hpa : p a = true) :
    ∀ {l : List α} {i : Nat}, findIndexOpt p l = some i →
      findIndexOpt p (l.set i a) = some i := by
  intro l
  induction l with
  | nil => intro i h; simp [findIndexOpt] at h
  | cons x t ih =>
    intro i h
    cases hx : p x with
    | true =>
      rw [findIndexOpt, hx] at h
      simp at h
      subst h
      simp [findIndexOpt, hpa]
    | false =>
      rw [findIndexOpt, hx] at h
      simp at h
      rcases h with ⟨j, hj, hji⟩
      subst hji
      simp only [List.set_cons_succ]
      rw [findIndexOpt, hx]
      simp [ih hj]

theorem countP_set_findIndexOpt {α : Type} {p : α → Bool} {a : α} (hpa : p a = true) :
    ∀ {l : List α} {i : Nat}, findIndexOpt p l = some i →
      (l.set i a).countP p = l.countP p := by
  intro l
  induction l with
  | nil => intro i h; simp [findIndexOpt] at h
  | cons x t ih =>
    intro i h
    cases hx : p x with
    | true =>
      rw [findIndexOpt, hx] at h
      simp at h
      subst h
      simp [List.countP_cons_of_pos _ _ hpa, List.countP_cons_of_pos _ _ hx]
    | false =>
      rw [findIndexOpt, hx] at h
      simp at h
      rcases h with ⟨j, hj, hji⟩
      subst hji
      simp only [List.set_cons_succ]
      have hx' : ¬ p x = true := by simp [hx]
      rw [List.countP_cons_of_neg _ _ hx', List.countP_cons_of_neg _ _ hx', ih hj]

theorem addRecentDownload_length_le {s : List RecentDownload} (r : RecentDownload)
    (p : Bool) (h : s.length ≤ 100) : (addRecentDownload s r p).length ≤ 100 := by
  cases p with
  | false => simpa [addRecentDownload] using h
  | true =>
    cases hfind : findIndexOpt (fun d => d.id == r.id) s with
    | some i =>
      rw [addRecentDownload_found hfind]
      simpa using h
    | none =>
      rw [addRecentDownload_fresh hfind]
      simp [List.length_take]

theorem addRecent_foldl_length_le (ops : List (RecentDownload × Bool)) :
    ∀ {acc : List RecentDownload}, acc.length ≤ 100 →
      (ops.foldl (fun acc op => addRecentDownload acc op.1 op.2) acc).length ≤ 100 := by
  induction ops with
  | nil => intro acc h; simpa using h
  | cons op t ih =>
    intro acc h
    exact ih (addRecentDownload_length_le op.1 op.2 h)

theorem charsIncludes_iff (hay needle : List Char) :
    charsIncludes hay needle = true ↔ needle <:+: hay := by
  induction hay with
  | nil =>
    simp [charsIncludes, List.isPrefixOf_iff_prefix]
  | cons c t ih =>
    simp only [charsIncludes, Bool.or_eq_true, List.isPrefixOf_iff_prefix, ih]
    exact (List.infix_cons_iff).symm

theorem charsIncludes_lower_eq (query s : String) :
    charsIncludes (lowerChars s) (lowerChars query) = decide (ciSubstr query s) := by
  by_cases h : ciSubstr query s
  · rw [decide_eq_true h]
    exact (charsIncludes_iff _ _).2 h
  · rw [decide_eq_false h]
    exact Bool.eq_false_iff.2 fun hc => h ((charsIncludes_iff _ _).1 hc)

/-
Claim theorems.
-/

/-- C10: if the backend persistence call of `addRecentDownload` fails, the
in-memory recent-downloads list is left completely unchanged — no
insertion, replacement, reordering, or eviction; the in-memory update
runs only after the persist call succeeds. -/
theorem c10_persist_fail_leaves_store_unchanged
    (current : List RecentDownload) (download : RecentDownload) :
    addRecentDownload current download false = current := rfl

/-- C8 counterexample: invoking `startDownload` with an id absent from the
queue does not fail with a NotFound error as the claim states — it is a
silent early return that raises no error, invokes no backend command, and
leaves the queue unchanged. -/
theorem c8_cex_absent_id_is_silent :
    startDownload [wAbsent] "missing" (Except.ok sessId) =
      ([wAbsent], StartResult.notInQueue, []) := by decide

/-- C8 amended: for every entryId not present in the queue,
`startDownload` returns silently as a no-op — no NotFound error is
raised, no backend command is invoked, and the queue state is left
unchanged. -/
theorem c8_amended_absent_id_noop (queue : List DownloadItem) (id : String)
    (invokeResult : Except String String)
    (h : queue.find? (fun d => d.id == id) = none) :
    startDownload queue id invokeResult = (queue, StartResult.notInQueue, []) := by
  unfold startDownload
  rw [h]

/-- C8 witness: the amended no-op behavior at the empty queue. -/
theorem c8_witness :
    startDownload [] "u1" (Except.error ipcErrMsg) = ([], StartResult.notInQueue, []) :=
  c8_amended_absent_id_noop [] "u1" (Except.error ipcErrMsg) rfl

/-- C2 counterexample: a `downloading` entry at percent 80 receives a
progress event carrying percent 10, and the store applies 10 — the
smaller value is not discarded, so the applied sequence decreases. -/
theorem c2_cex_progress_decreases :
    applyProgressEvent [wDl] "d1" 10 none none = [wDlUpd] ∧
    wDl.status = DownloadStatus.downloading ∧
    wDl.progress = 80 ∧ wDlUpd.progress = 10 ∧
    applyProgressEvent [wDl] "d1" 10 none none ≠ [wDl] := by decide

/-- C2 amended: a progress event overwrites the matching entry percent
with the incoming value unconditionally, whatever the previous value was;
smaller incoming values are applied, not discarded, so the sequence of
applied percents is exactly the arrival sequence. -/
theorem c2_amended_progress_overwrites (queue : List DownloadItem) (id : String)
    (percent : Nat) (sp et : Option String) (d : DownloadItem)
    (hmem : d ∈ applyProgressEvent queue id percent sp et) (hid : d.id = id) :
    d.progress = percent := by
  rcases List.mem_map.1 hmem with ⟨d0, _, rfl⟩
  by_cases h : d0.id = id
  · simp [h]
  · simp [h] at hid

/-- C2 witness: the amended overwrite behavior at a concrete entry. -/
theorem c2_witness :
    wDlUpd ∈ applyProgressEvent [wDl] "d1" 10 none none ∧ wDlUpd.progress = 10 :=
  ⟨by decide,
   c2_amended_progress_overwrites [wDl] "d1" 10 none none wDlUpd (by decide) rfl⟩

/-- C3 counterexample: a progress event carrying percent 50 reaches an
entry already `completed`; the update is applied, not a no-op — the entry
percent drops from 100 to 50. -/
theorem c3_cex_terminal_entry_updated :
    applyProgressEvent [wDone] "dc" 50 none none = [{ wDone with progress := 50 }] ∧
    wDone.status = DownloadStatus.completed ∧ wDone.progress = 100 ∧
    applyProgressEvent [wDone] "dc" 50 none none ≠ [wDone] := by decide

/-- C3 amended: entries in a terminal state are not exempt from progress
events — a matching `completed` or `failed` entry has its percent
overwritten with the incoming value (its status itself is unchanged, and
speed/eta follow the payload-falsy rule). -/
theorem c3_amended_terminal_not_exempt (queue : List DownloadItem) (id : String)
    (percent : Nat) (sp et : Option String) (d : DownloadItem)
    (hmem : d ∈ queue) (hid : d.id = id)
    (hterm : d.status = DownloadStatus.completed ∨ d.status = DownloadStatus.failed) :
    ∃ d', d' ∈ applyProgressEvent queue id percent sp et ∧
      d'.status = d.status ∧ d'.progress = percent ∧
      (d'.status = DownloadStatus.completed ∨ d'.status = DownloadStatus.failed) := by
  refine ⟨{ d with
      progress := percent,
      speed := jsStrOr sp d.speed,
      eta := jsStrOr et d.eta }, ?_, rfl, rfl, hterm⟩
  exact List.mem_map.2 ⟨d, hmem, by simp [hid]⟩

/-- C3 witness: the amended behavior at a concrete completed entry. -/
theorem c3_witness :
    ∃ d', d' ∈ applyProgressEvent [wDone] "dc" 50 none none ∧
      d'.status = wDone.status ∧ d'.progress = 50 ∧
      (d'.status = DownloadStatus.completed ∨ d'.status = DownloadStatus.failed) :=
  c3_amended_terminal_not_exempt [wDone] "dc" 50 none none wDone
    (by decide) rfl (Or.inl rfl)

/-- C4 counterexample: cancel on a `downloading` entry whose backend
cancel invocation rejects leaves the entry `downloading`, not `pending`
as the claim states. -/
theorem c4_cex_failed_cancel_stays_downloading :
    cancelDownload [wCancel] "d1" (Except.error ipcErrMsg) = [wCancel] ∧
    wCancel.status = DownloadStatus.downloading ∧
    (cancelDownload [wCancel] "d1" (Except.error ipcErrMsg)).map DownloadItem.status ≠
      [DownloadStatus.pending] := by decide

/-- C4 amended: cancel moves a matching entry to `pending` only when the
backend cancel invocation succeeds; when the invocation fails the error is
only logged and the queue is left unchanged, so a `downloading` entry
remains `downloading`. -/
theorem c4_amended_cancel (queue : List DownloadItem) (id : String) :
    (∀ e : String, cancelDownload queue id (Except.error e) = queue) ∧
    (∀ d, d ∈ cancelDownload queue id (Except.ok ()) → d.id = id →
      d.status = DownloadStatus.pending) := by
  constructor
  · intro e; rfl
  · intro d hmem hid
    have hmem' : d ∈ queue.map (fun x =>
        if x.id = id then { x with status := DownloadStatus.pending } else x) := hmem
    rcases List.mem_map.1 hmem' with ⟨d0, _, rfl⟩
    by_cases h : d0.id = id
    · simp [h]
    · simp [h] at hid

/-- C4 witness: the amended cancel behavior at a concrete entry. -/
theorem c4_witness :
    cancelDownload [wCancel] "d1" (Except.ok ()) = [wCancelPend] ∧
    wCancelPend.status = DownloadStatus.pending := by
  refine ⟨by decide, ?_⟩
  exact (c4_amended_cancel [wCancel] "d1").2 wCancelPend (by decide) rfl

/-- C6 counterexample: when `start_download` rejects with an auth error,
the entry goes straight to `failed` with that first error recorded; no
credential refresh is invoked (count 0, not the exactly-one the claim
states) and `start_download` is not retried. -/
theorem c6_cex_no_refresh_no_retry :
    (startDownload [wPend] "d1" (Except.error authErrMsg)).2.2 = [cmdStartDownload] ∧
    (startDownload [wPend] "d1" (Except.error authErrMsg)).2.2.count cmdRefreshCookies = 0 ∧
    (startDownload [wPend] "d1" (Except.error authErrMsg)).2.2.count cmdRefreshCookies ≠ 1 ∧
    (startDownload [wPend] "d1" (Except.error authErrMsg)).1.map DownloadItem.status =
      [DownloadStatus.failed] ∧
    (startDownload [wPend] "d1" (Except.error authErrMsg)).1.map DownloadItem.error =
      [some authErrMsg] := by decide

/-- C6 amended: when the download attempt on a present entry fails — with
an auth error or any other — no credential refresh is attempted and start
is not retried: exactly one `start_download` invocation occurs, zero
`refresh_cookies` invocations, and the entry transitions directly to
`failed` with that first error recorded. -/
theorem c6_amended_no_auth_retry (queue : List DownloadItem) (id : String)
    (e : String) (it : DownloadItem)
    (hfind : queue.find? (fun d => d.id == id) = some it) :
    (startDownload queue id (Except.error e)).2.2.count cmdRefreshCookies = 0 ∧
    (startDownload queue id (Except.error e)).2.2.count cmdStartDownload = 1 ∧
    ∀ d, d ∈ (startDownload queue id (Except.error e)).1 → d.id = id →
      d.status = DownloadStatus.failed ∧ d.error = some e := by
  have htrace : (startDownload queue id (Except.error e)).2.2 = [cmdStartDownload] := by
    unfold startDownload
    rw [hfind]
  have hq : (startDownload queue id (Except.error e)).1 =
      (queue.map fun d =>
        if d.id = id then { d with status := DownloadStatus.downloading } else d).map
        (fun d =>
          if d.id = id then { d with status := DownloadStatus.failed, error := some e }
          else d) := by
    unfold startDownload
    rw [hfind]
  refine ⟨by rw [htrace]; decide, by rw [htrace]; decide, ?_⟩
  intro d hmem hid
  rw [hq, List.map_map] at hmem
  rcases List.mem_map.1 hmem with ⟨d0, _, rfl⟩
  by_cases h : d0.id = id
  · simp [Function.comp, h]
  · simp [Function.comp, h] at hid

/-- C6 witness: the amended no-retry behavior at a concrete entry. -/
theorem c6_witness :
    (startDownload [wPend] "d1" (Except.error ipcErrMsg)).2.2.count cmdRefreshCookies = 0 ∧
    (startDownload [wPend] "d1" (Except.error ipcErrMsg)).2.2.count cmdStartDownload = 1 := by
  have h := c6_amended_no_auth_retry [wPend] "d1" ipcErrMsg wPend (by decide)
  exact ⟨h.1, h.2.1⟩

/-- C7 counterexample: completing a `downloading` entry sets it
`completed` at percent 100 but does not clear the transient speed/eta
display strings — they keep their last live values, contradicting the
claim that they are cleared. -/
theorem c7_cex_speed_eta_not_cleared :
    (completeAndRecord stC7 "d1" (Except.ok 5) tsC7 none recC7 false).downloadQueue.map
        (fun d => (d.status, d.progress, d.speed, d.eta)) =
      [(DownloadStatus.completed, 100, wRun.speed, wRun.eta)] ∧
    wRun.speed = "1.2 MB/s" ∧ wRun.eta = "00:42" ∧
    wRun.speed ≠ "" ∧ wRun.eta ≠ "" ∧ wRun.speed ≠ "0 B/s" ∧ wRun.eta ≠ "--:--" := by
  decide

/-- C7 amended: completion transitions a matching `downloading` entry to
`completed` with percent 100 and records size and timestamp, but leaves
the speed/eta fields unchanged (they are not cleared); the queue outcome
is identical whether the recent-store write succeeds or fails. -/
theorem c7_amended_complete (st : AppState) (id : String)
    (fsr : Except String Nat) (completedAt : String) (videoDur : Option Nat)
    (rec : RecentDownload) (persistOk : Bool) (d : DownloadItem)
    (hmem : d ∈ st.downloadQueue) (hid : d.id = id) :
    (completeAndRecord st id fsr completedAt videoDur rec false).downloadQueue =
      (completeAndRecord st id fsr completedAt videoDur rec true).downloadQueue ∧
    ∃ d', d' ∈ (completeAndRecord st id fsr completedAt videoDur rec persistOk).downloadQueue ∧
      d'.status = DownloadStatus.completed ∧ d'.progress = 100 ∧
      d'.speed = d.speed ∧ d'.eta = d.eta := by
  constructor
  · rfl
  · refine ⟨{ d with
        status := DownloadStatus.completed,
        progress := 100,
        downloadedAt := some completedAt,
        size := some (resolvedSize fsr),
        duration := some (jsNumOr videoDur (jsNumOr d.duration 0)) }, ?_, rfl, rfl, rfl, rfl⟩
    exact List.mem_map.2 ⟨d, hmem, by simp [hid]⟩

/-- C7 witness: the amended completion behavior at a concrete entry with
a failing store write. -/
theorem c7_witness :
    ∃ d', d' ∈ (completeAndRecord stC7 "d1" (Except.ok 5) tsC7 none recC7 false).downloadQueue ∧
      d'.status = DownloadStatus.completed ∧ d'.progress = 100 ∧
      d'.speed = wRun.speed ∧ d'.eta = wRun.eta :=
  (c7_amended_complete stC7 "d1" (Except.ok 5) tsC7 none recC7 false wRun
    (by decide) rfl).2

/-- C1 counterexample: adding a record whose identifier already exists at
a non-front position replaces it in place — the store front still holds
the other record, so the upserted record is not positioned at the front
as the claim states. -/
theorem c1_cex_duplicate_not_moved_to_front :
    addRecentDownload [wRecA, wRecB] wRecB2 true = [wRecA, wRecB2] ∧
    (addRecentDownload [wRecA, wRecB] wRecB2 true).head? = some wRecA ∧
    wRecA.id ≠ wRecB2.id ∧ wRecB.id = wRecB2.id := by decide

/-- C1 amended: adding a record whose identifier is already present
replaces the existing record in place at its current position (it is not
moved to the front); this preserves having exactly one record with that
identifier, and add is idempotent — adding the same record twice equals
adding it once. -/
theorem c1_amended_upsert_in_place (s : List RecentDownload) (r : RecentDownload) :
    addRecentDownload (addRecentDownload s r true) r true = addRecentDownload s r true ∧
    ∀ i, findIndexOpt (fun d => d.id == r.id) s = some i →
      addRecentDownload s r true = s.set i r ∧
      (s.countP (fun d => d.id == r.id) = 1 →
        (addRecentDownload s r true).countP (fun d => d.id == r.id) = 1) := by
  have hpr : (fun d : RecentDownload => d.id == r.id) r = true := by simp
  constructor
  · cases hfind : findIndexOpt (fun d => d.id == r.id) s with
    | none =>
      rw [addRecentDownload_fresh hfind]
      have h2 : findIndexOpt (fun d => d.id == r.id) (r :: s.take 99) = some 0 := by
        simp [findIndexOpt]
      rw [addRecentDownload_found h2]
      rfl
    | some i =>
      rw [addRecentDownload_found hfind]
      rw [addRecentDownload_found
        (@findIndexOpt_set RecentDownload (fun d => d.id == r.id) r hpr s i hfind)]
      exact List.set_set r r s i
  · intro i hfind
    refine ⟨addRecentDownload_found hfind, ?_⟩
    intro hcount
    rw [addRecentDownload_found hfind,
      @countP_set_findIndexOpt RecentDownload (fun d => d.id == r.id) r hpr s i hfind,
      hcount]

/-- C1 witness: the amended in-place upsert at a concrete two-record
store with a duplicate identifier at position 1. -/
theorem c1_witness :
    addRecentDownload (addRecentDownload [wRecA, wRecB] wRecB2 true) wRecB2 true =
      addRecentDownload [wRecA, wRecB] wRecB2 true ∧
    addRecentDownload [wRecA, wRecB] wRecB2 true = ([wRecA, wRecB]).set 1 wRecB2 ∧
    (addRecentDownload [wRecA, wRecB] wRecB2 true).countP
      (fun d => d.id == wRecB2.id) = 1 := by
  have h := c1_amended_upsert_in_place [wRecA, wRecB] wRecB2
  exact ⟨h.1, (h.2 1 (by decide)).1, (h.2 1 (by decide)).2 (by decide)⟩

/-- C5: the recent-downloads store never exceeds 100 records — a single
add preserves the bound, any sequence of adds from the empty store stays
within it — and adding a record with a fresh identifier to a store of
exactly 100 records evicts exactly the oldest (last-position) record
while keeping all others in order. -/
theorem c5_capacity_and_eviction (s : List RecentDownload) (r : RecentDownload) :
    (∀ p : Bool, s.length ≤ 100 → (addRecentDownload s r p).length ≤ 100) ∧
    (∀ ops : List (RecentDownload × Bool),
      (ops.foldl (fun acc op => addRecentDownload acc op.1 op.2) []).length ≤ 100) ∧
    (s.length = 100 → findIndexOpt (fun d => d.id == r.id) s = none →
      addRecentDownload s r true = r :: s.dropLast) := by
  refine ⟨fun p h => addRecentDownload_length_le r p h,
    fun ops => addRecent_foldl_length_le ops (by simp), ?_⟩
  intro hlen hfind
  rw [addRecentDownload_fresh hfind, List.dropLast_eq_take, hlen]

set_option maxRecDepth 4000 in
/-- C5 witness: the capacity bound and exact-oldest eviction at a store
of 100 records receiving a fresh identifier. -/
theorem c5_witness :
    (addRecentDownload wRep wNewRec true).length ≤ 100 ∧
    addRecentDownload wRep wNewRec true = wNewRec :: wRep.dropLast := by
  have h := c5_capacity_and_eviction wRep wNewRec
  exact ⟨h.1 true (by simp [wRep]), h.2.2 (by simp [wRep]) (by decide)⟩

/-- C9: `search` returns exactly the records whose title or source URL
contains the query as a case-insensitive substring, in the store order
(it is a sublist of the store); on the spec scenario store it returns
exactly the Rick Astley record. -/
theorem c9_search_case_insensitive (all : List RecentDownload) (query : String) :
    RecentDownloadsService.search all query =
      all.filter (fun d => decide (ciSubstr query d.title) || decide (ciSubstr query d.url)) ∧
    List.Sublist (RecentDownloadsService.search all query) all ∧
    RecentDownloadsService.search [wRick, wOtherVid] "rick" = [wRick] := by
  refine ⟨?_, ?_, by decide⟩
  · show all.filter (fun d =>
        charsIncludes (lowerChars d.title) (lowerChars query) ||
        charsIncludes (lowerChars d.url) (lowerChars query)) = _
    refine List.filter_congr ?_
    intro d _
    rw [charsIncludes_lower_eq, charsIncludes_lower_eq]
  · exact List.filter_sublist _
